import Mathlib

/-!
Verification development for the DropCrate pipeline orchestrator
(packages/api/dropcrate): a shallow embedding, in Lean, of the event bus
(services/job_manager.py), the batch pipeline (services/pipeline.py) and the
upload/resume controller (routers/upload.py), together with theorems about
the embedded code.

Conventions of the embedding:
* Python `None`-able strings become `Option String`; Python string
  truthiness (`x or y`, `if x and ...`) is modelled explicitly (`pyOr`).
* `asyncio.Queue(maxsize=200)` becomes a `List Event` that accepts a
  `put_nowait` only while its length is below 200.
* Python `dict` becomes an association list with insertion-order semantics
  (`dictInsert` overwrites in place, otherwise appends).
* Results of the external stage collaborators (metadata fetch, download,
  fingerprint, harmonic analysis, normalize, transcode, tagging, database)
  are supplied by an environment record; an `Except.error msg` field means
  the corresponding call raises with message `msg`.
* The job cancellation flag is mutated concurrently by the cancel endpoint,
  so each read of `job.cancel_requested` is modelled by `cancel k` where
  `k` numbers the reads of one item run in program order.
-/

set_option maxRecDepth 8000
set_option maxHeartbeats 1000000

namespace DropcrateSpec

/-- Tagged event variants broadcast through the job manager
(emitted by pipeline.py and upload.py). -/
inductive Event where
  | queueStart (jobId : String) (count : Nat) (inboxDir : String) (mode : String)
  | itemStart (jobId itemId url : String)
  | itemProgress (jobId itemId url stage : String)
  | itemUploadNeeded (jobId itemId url title errMsg : String)
  | itemDone (jobId itemId url : String)
  | itemError (jobId itemId url errMsg : String)
  | warning (jobId message : String)
  | queueDone (jobId : String)
  deriving DecidableEq, Repr

/-- History cap used in JobManager.broadcast (job_manager.py line 31). -/
def HISTORY_CAP : Nat := 500

/-- Subscriber queue capacity, asyncio.Queue(maxsize=200)
(job_manager.py line 41). -/
def QUEUE_MAXSIZE : Nat := 200

/-- The Job dataclass (job_manager.py lines 8-13).  It declares exactly the
four fields below; in particular it has no `completed_ids` field, although
pipeline.py line 444, pipeline.py line 45 and upload.py line 269 read
`job.completed_ids`. -/
structure Job where
  id : String
  cancel_requested : Bool := false
  history : List Event := []
  subscribers : List (String × List Event) := []
  deriving DecidableEq, Repr

/-- asyncio.Queue.put_nowait on a queue of capacity `QUEUE_MAXSIZE`:
append while below capacity, otherwise QueueFull (the callers in
job_manager.py swallow QueueFull, dropping the event). -/
def put_nowait (q : List Event) (e : Event) : List Event :=
  if q.length < QUEUE_MAXSIZE then q ++ [e] else q

/-- JobManager.broadcast (job_manager.py lines 29-37): append the event to
the history, evict the oldest entries when the history exceeds the cap
(`job.history[-500:]`), and put_nowait into every subscriber queue,
silently dropping on a full queue. -/
def broadcast (job : Job) (event : Event) : Job :=
  let h := job.history ++ [event]
  { job with
    history := if h.length > HISTORY_CAP then h.drop (h.length - HISTORY_CAP) else h
    subscribers := job.subscribers.map fun p => (p.1, put_nowait p.2 event) }

/-- Replay loop of JobManager.subscribe (job_manager.py lines 44-48):
put_nowait each history event into the fresh queue, stopping at the first
QueueFull. -/
def replay (q : List Event) : List Event → List Event
  | [] => q
  | e :: rest => if q.length < QUEUE_MAXSIZE then replay (q ++ [e]) rest else q

/-- Python dict assignment `m[k] = v` on an insertion-ordered dict:
overwrite in place when the key exists, otherwise append. -/
def dictInsert {α : Type} (m : List (String × α)) (k : String) (v : α) :
    List (String × α) :=
  if m.any (fun p => p.1 == k) then
    m.map fun p => if p.1 == k then (k, v) else p
  else m ++ [(k, v)]

/-- Python dict lookup `m.get(k)`. -/
def dictGet {α : Type} (m : List (String × α)) (k : String) : Option α :=
  (m.find? fun p => p.1 == k).map Prod.snd

/-- JobManager.subscribe (job_manager.py lines 39-49): register a fresh
bounded queue under a fresh client id, then replay the current history into
it (the registered queue object and the replayed queue are the same
object, so the net effect is registering the replayed queue). -/
def subscribe (job : Job) (clientId : String) : Job × List Event :=
  let q := replay [] job.history
  ({ job with subscribers := dictInsert job.subscribers clientId q }, q)

/-- A sequence of broadcast calls against one job. -/
def runBroadcasts (job : Job) (es : List Event) : Job :=
  es.foldl broadcast job

/-- The queue currently registered for subscriber `c`. -/
def subQueue (job : Job) (c : String) : Option (List Event) :=
  (job.subscribers.find? fun p => p.1 == c).map Prod.snd

/-- One broadcast extends the history by the event and evicts the
oldest entries beyond the cap. -/
theorem broadcast_history (job : Job) (e : Event) :
    (broadcast job e).history =
      (job.history ++ [e]).drop (job.history.length + 1 - HISTORY_CAP) := by
  show (if (job.history ++ [e]).length > HISTORY_CAP then
          (job.history ++ [e]).drop ((job.history ++ [e]).length - HISTORY_CAP)
        else job.history ++ [e]) = _
  have hlen : (job.history ++ [e]).length = job.history.length + 1 := by
    simp
  by_cases hc : (job.history ++ [e]).length > HISTORY_CAP
  · rw [if_pos hc, hlen]
  · rw [if_neg hc]
    rw [hlen] at hc
    have h0 : job.history.length + 1 - HISTORY_CAP = 0 := by omega
    rw [h0, List.drop_zero]

/-- Folded form of the history after a sequence of broadcasts: the history
is the suffix of the accumulated stream that fits under the cap. -/
theorem runBroadcasts_history (es : List Event) :
    ∀ job : Job, job.history.length ≤ HISTORY_CAP →
      (runBroadcasts job es).history =
        (job.history ++ es).drop (job.history.length + es.length - HISTORY_CAP) := by
  induction es with
  | nil =>
    intro job h
    simp only [runBroadcasts, List.foldl_nil, List.append_nil, List.length_nil]
    rw [Nat.add_zero, Nat.sub_eq_zero_of_le h, List.drop_zero]
  | cons e es ih =>
    intro job h
    have hlen : (broadcast job e).history.length ≤ HISTORY_CAP := by
      rw [broadcast_history]
      simp only [List.length_drop, List.length_append, List.length_cons, List.length_nil]
      omega
    have h1 := ih (broadcast job e) hlen
    show (runBroadcasts (broadcast job e) es).history = _
    rw [h1, broadcast_history]
    have hk : job.history.length + 1 - HISTORY_CAP ≤ (job.history ++ [e]).length := by
      simp only [List.length_append, List.length_cons, List.length_nil]
      omega
    rw [← List.drop_append_of_le_length hk, List.drop_drop]
    have hx : (job.history ++ [e]) ++ es = job.history ++ e :: es := by
      rw [List.append_assoc, List.singleton_append]
    rw [hx]
    congr 1
    simp only [List.length_drop, List.length_append, List.length_cons, List.length_nil]
    unfold HISTORY_CAP
    unfold HISTORY_CAP at h
    omega

/-- C6: for a job created with an empty history, after any sequence of
broadcasts the history length is at most 500, and once more than 500 events
were broadcast the history is exactly the most recent 500 in emission
order. -/
theorem history_cap_claim (job : Job) (es : List Event) (h0 : job.history = []) :
    (runBroadcasts job es).history.length ≤ 500 ∧
      (es.length > 500 →
        (runBroadcasts job es).history = es.drop (es.length - 500)) := by
  have h := runBroadcasts_history es job (by rw [h0]; exact Nat.zero_le _)
  rw [h0] at h
  simp only [List.nil_append, List.length_nil, Nat.zero_add] at h
  refine ⟨?_, fun _ => h⟩
  rw [h]
  simp only [List.length_drop]
  unfold HISTORY_CAP
  omega

/-- Concrete instance backing `history_cap_claim`: 501 broadcast events. -/
def es501 : List Event := List.replicate 501 (Event.queueDone "j")

theorem history_cap_claim_witness :
    (runBroadcasts ⟨"j", false, [], []⟩ es501).history.length ≤ 500 ∧
      (runBroadcasts ⟨"j", false, [], []⟩ es501).history =
        es501.drop (es501.length - 500) := by
  have h := history_cap_claim ⟨"j", false, [], []⟩ es501 rfl
  exact ⟨h.1, h.2 (by unfold es501; rw [List.length_replicate]; omega)⟩

/-- C7: broadcast appends the event to the history, and delivers it to every
subscriber queue that has room; a full queue drops the event for that
subscriber only, leaving every other subscriber queue and the history still
updated.  The embedding is a total function — there is no blocking path. -/
theorem broadcast_nonblocking (job : Job) (e : Event) :
    (∃ pre, (broadcast job e).history = pre ++ [e]) ∧
      (broadcast job e).subscribers =
        job.subscribers.map fun p =>
          (p.1, if p.2.length < 200 then p.2 ++ [e] else p.2) := by
  constructor
  · refine ⟨job.history.drop (job.history.length + 1 - HISTORY_CAP), ?_⟩
    rw [broadcast_history]
    have hk : job.history.length + 1 - HISTORY_CAP ≤ job.history.length := by
      unfold HISTORY_CAP; omega
    rw [List.drop_append_of_le_length hk]
  · rfl

/-- Replay fills the queue from the history front until the queue is full. -/
theorem replay_eq (l : List Event) :
    ∀ q : List Event, replay q l = q ++ l.take (QUEUE_MAXSIZE - q.length) := by
  induction l with
  | nil => intro q; simp [replay]
  | cons e rest ih =>
    intro q
    unfold replay
    split
    · rename_i hq
      rw [ih (q ++ [e])]
      have hs : QUEUE_MAXSIZE - q.length = (QUEUE_MAXSIZE - (q ++ [e]).length) + 1 := by
        simp only [List.length_append, List.length_cons, List.length_nil]
        omega
      rw [hs, List.take_succ_cons, List.append_assoc, List.singleton_append]
    · rename_i hq
      have hz : QUEUE_MAXSIZE - q.length = 0 := by omega
      rw [hz, List.take_zero, List.append_nil]

/-- Mapping `put_nowait` over the values of the subscriber list commutes
with looking a subscriber up by key. -/
theorem find?_map_put (m : List (String × List Event)) (e : Event) (c : String) :
    ((m.map fun p => (p.1, put_nowait p.2 e)).find? fun p => p.1 == c) =
      (m.find? fun p => p.1 == c).map fun p => (p.1, put_nowait p.2 e) := by
  induction m with
  | nil => rfl
  | cons p m ih =>
    simp only [List.map_cons, List.find?_cons]
    by_cases h : (p.1 == c) = true
    · simp [h]
    · simp [h, ih]

/-- Effect of one broadcast on a registered subscriber queue. -/
theorem subQueue_broadcast (job : Job) (e : Event) (c : String) :
    subQueue (broadcast job e) c = (subQueue job c).map fun q => put_nowait q e := by
  show ((job.subscribers.map fun p => (p.1, put_nowait p.2 e)).find? fun p => p.1 == c).map Prod.snd = _
  rw [find?_map_put]
  cases h : job.subscribers.find? fun p => p.1 == c <;> simp [subQueue, h]

/-- Effect of a broadcast sequence on a registered subscriber queue. -/
theorem subQueue_runBroadcasts (es : List Event) :
    ∀ (job : Job) (c : String),
      subQueue (runBroadcasts job es) c =
        (subQueue job c).map fun q => es.foldl put_nowait q := by
  induction es with
  | nil => intro job c; cases h : subQueue job c <;> simp [runBroadcasts, h]
  | cons e es ih =>
    intro job c
    show subQueue (runBroadcasts (broadcast job e) es) c = _
    rw [ih, subQueue_broadcast]
    cases h : subQueue job c <;> simp [h]

/-- While the queue has room for all of them, enqueued events accumulate in
order with no loss. -/
theorem foldl_put_nowait (es : List Event) :
    ∀ q : List Event, q.length + es.length ≤ QUEUE_MAXSIZE →
      es.foldl put_nowait q = q ++ es := by
  induction es with
  | nil => intro q _; simp
  | cons e es ih =>
    intro q h
    simp only [List.length_cons] at h
    have h1 : put_nowait q e = q ++ [e] := by
      unfold put_nowait
      rw [if_pos]
      omega
    simp only [List.foldl_cons, h1]
    rw [ih (q ++ [e]) (by simp only [List.length_append, List.length_cons, List.length_nil]; omega)]
    rw [List.append_assoc, List.singleton_append]

/-- find? skips a prefix in which nothing matches. -/
theorem find?_append_of_none {α : Type} (l₁ l₂ : List α) (p : α → Bool)
    (h : l₁.find? p = none) : (l₁ ++ l₂).find? p = l₂.find? p := by
  induction l₁ with
  | nil => rfl
  | cons a l ih =>
    by_cases ha : p a = true
    · rw [List.find?_cons_of_pos _ ha] at h; exact absurd h (by simp)
    · rw [List.find?_cons_of_neg _ ha] at h
      rw [List.cons_append, List.find?_cons_of_neg _ ha, ih h]

/-- Registering a fresh subscriber id stores exactly the replayed queue. -/
theorem subQueue_subscribe_fresh (job : Job) (c : String)
    (hfresh : ∀ p ∈ job.subscribers, ¬ p.1 = c) :
    subQueue (subscribe job c).1 c = some (replay [] job.history) := by
  have hnone : (job.subscribers.find? fun p => p.1 == c) = none := by
    rw [List.find?_eq_none]
    intro p hp
    simpa using hfresh p hp
  have hany : (job.subscribers.any fun p => p.1 == c) = false := by
    rw [List.any_eq_false]
    intro p hp
    simpa using hfresh p hp
  unfold subscribe subQueue dictInsert
  simp only [hany, Bool.false_eq_true, if_false]
  rw [find?_append_of_none _ _ _ hnone]
  rw [List.find?_cons_of_pos _ (by simp)]
  rfl

/-- C8: a subscriber registered while the history holds `job.history` gets
the full history replayed (its queue is exactly the history, in order);
after `es` further broadcasts that fit under the queue capacity its queue is
the history followed by the live events, gap- and duplicate-free.  With
`job.history = []` this is the pre-existing-subscriber half of the claim.
Replay in general stops exactly when the queue fills (the `take 200`). -/
theorem subscriber_delivery_claim (job : Job) (es : List Event) (c : String)
    (hfresh : ∀ p ∈ job.subscribers, ¬ p.1 = c)
    (hcap : job.history.length + es.length ≤ 200) :
    (subscribe job c).2 = job.history ∧
      subQueue (runBroadcasts (subscribe job c).1 es) c = some (job.history ++ es) ∧
      ∀ hist2 : List Event, replay [] hist2 = hist2.take 200 := by
  have hreplay : ∀ hist2 : List Event, replay [] hist2 = hist2.take 200 := by
    intro hist2
    rw [replay_eq]
    simp [QUEUE_MAXSIZE]
  have hq : (subscribe job c).2 = job.history := by
    show replay [] job.history = job.history
    rw [hreplay]
    exact List.take_of_length_le (by omega)
  refine ⟨hq, ?_, hreplay⟩
  rw [subQueue_runBroadcasts, subQueue_subscribe_fresh job c hfresh]
  have h2 : replay [] job.history = job.history := hq
  rw [h2]
  show some (es.foldl put_nowait job.history) = some (job.history ++ es)
  rw [foldl_put_nowait es job.history (by simpa [QUEUE_MAXSIZE] using hcap)]

theorem subscriber_delivery_claim_witness :
    (subscribe ⟨"j", false, [Event.itemStart "j" "i" "u"], []⟩ "c").2 =
        [Event.itemStart "j" "i" "u"] ∧
      subQueue (runBroadcasts
          (subscribe ⟨"j", false, [Event.itemStart "j" "i" "u"], []⟩ "c").1
          [Event.queueDone "j"]) "c" =
        some ([Event.itemStart "j" "i" "u"] ++ [Event.queueDone "j"]) ∧
      replay [] (List.replicate 300 (Event.queueDone "j")) =
        (List.replicate 300 (Event.queueDone "j")).take 200 := by
  have h := subscriber_delivery_claim ⟨"j", false, [Event.itemStart "j" "i" "u"], []⟩
    [Event.queueDone "j"] "c" (by simp) (by simp)
  exact ⟨h.1, h.2.1, h.2.2 _⟩

/-! ## Data model of the pipeline (models/schemas.py)

Pydantic float fields (loudness targets) are modelled as `Int`: no claim
depends on their arithmetic, only on the values being carried along. -/

inductive AudioFormat where
  | aiff | wav | flac | mp3
  deriving DecidableEq, Repr

/-- String value of the AudioFormat enum. -/
def AudioFormat.value : AudioFormat → String
  | .aiff => "aiff"
  | .wav => "wav"
  | .flac => "flac"
  | .mp3 => "mp3"

inductive DownloadMode where
  | djSafe | fast
  deriving DecidableEq, Repr

/-- String value of the DownloadMode enum. -/
def DownloadMode.value : DownloadMode → String
  | .djSafe => "dj-safe"
  | .fast => "fast"

structure LoudnessConfig where
  target_i : Int := -14
  target_tp : Int := -1
  target_lra : Int := 11
  deriving DecidableEq, Repr

/-- DJTags (schemas.py): the caller preset snapshot; plain strings, with
"Other" the genre sentinel and "" the unset value of the other fields. -/
structure DJTags where
  genre : String := "Other"
  energy : String := ""
  time : String := ""
  vibe : String := ""
  deriving DecidableEq, Repr

/-- Relevant fields of the heuristic ClassifyResult (AutoClassification):
Optional strings. -/
structure ClassifyResult where
  genre : Option String := none
  energy : Option String := none
  time : Option String := none
  vibe : Option String := none
  deriving DecidableEq, Repr

structure QueueItemInput where
  id : String
  url : String
  preset_snapshot : DJTags := {}
  deriving DecidableEq, Repr

structure QueueStartRequest where
  inbox_dir : String
  mode : DownloadMode := .djSafe
  audio_format : AudioFormat := .aiff
  normalize_enabled : Bool := true
  loudness : LoudnessConfig := {}
  items : List QueueItemInput := []
  deriving DecidableEq, Repr

/-- Fields of the yt-dlp info dict read by the pipeline; `info.get(k)`
returns None for a missing key, hence the Options.  `vid` is info["id"]. -/
structure VideoInfo where
  vid : Option String := none
  title : Option String := none
  uploader : Option String := none
  duration : Option Int := none
  webpage_url : Option String := none
  deriving DecidableEq, Repr

/-- Result of title_parser.normalize_from_youtube_title. -/
structure Normalized where
  artist : String
  title : String
  version : String
  deriving DecidableEq, Repr

/-- Result of fingerprint.try_match_music_metadata when a match is found. -/
structure MatchResult where
  artist : String
  title : String
  version : String
  album : Option String := none
  year : Option Int := none
  label : Option String := none
  deriving DecidableEq, Repr

/-- Python `x or d` for an optional string: None and "" are falsy. -/
def pyOr (a : Option String) (dflt : String) : String :=
  match a with
  | some s => if s = "" then dflt else s
  | none => dflt

/-- Python `x or d` for a plain string. -/
def pyOrS (a : String) (dflt : String) : String :=
  if a = "" then dflt else a

/-- Effective genre merge (pipeline.py lines 200-204): the preset wins when
truthy and not the "Other" sentinel, else `classification.genre or "Other"`. -/
def effective_genre (preset : String) (auto : Option String) : String :=
  if preset ≠ "" ∧ preset ≠ "Other" then preset else pyOr auto "Other"

/-- Effective energy/time/vibe merge (pipeline.py lines 205-207):
`dj_defaults.x or (classification.x or "")`. -/
def effective_field (preset : String) (auto : Option String) : String :=
  pyOrS preset (pyOr auto "")

/-- The classification dict stored in a pending-upload context (effective,
already-merged string values). -/
structure TagValues where
  genre : String
  energy : String
  time : String
  vibe : String
  deriving DecidableEq, Repr

/-- Pending Resume Context: the `_pending_uploads[item_id]` dict
(pipeline.py lines 166-180 and 229-243). -/
structure PendingCtx where
  job_id : String
  item_id : String
  url : String
  info : VideoInfo
  source_url : String
  source_id : String
  normalized : Normalized
  classification : TagValues
  title_had_separator : Bool
  dj_defaults : DJTags
  work_dir : String
  inbox_dir : String
  req : QueueStartRequest
  deriving DecidableEq, Repr

instance {ε α : Type} [DecidableEq ε] [DecidableEq α] : DecidableEq (Except ε α) := fun a b =>
  match a, b with
  | .error e₁, .error e₂ =>
    if h : e₁ = e₂ then .isTrue (congrArg Except.error h)
    else .isFalse fun hh => h (Except.error.inj hh)
  | .error _, .ok _ => .isFalse fun hh => Except.noConfusion hh
  | .ok _, .error _ => .isFalse fun hh => Except.noConfusion hh
  | .ok a₁, .ok a₂ =>
    if h : a₁ = a₂ then .isTrue (congrArg Except.ok h)
    else .isFalse fun hh => h (Except.ok.inj hh)

/-- Outcomes of the external stage collaborators for one item run (§6 of the
spec): an `Except.error msg` field means the corresponding call raises with
message `msg` at this run.  `synthId` is the video id synthesized from the
url on metadata failure (regex match or sha1 prefix, pipeline.py lines
162-163); `srcIdHash` the sha1 fallback of line 192; `titleHadSeparator`
the separator-regex result of line 211.  `thumb` is the result of
download_thumbnail, which swallows its own errors and returns None. -/
structure ItemEnv where
  fetchInfo : Except String VideoInfo := .error "metadata failed"
  synthId : String := ""
  srcIdHash : String := ""
  classification : ClassifyResult := {}
  normalized : Normalized := ⟨"Unknown", "Unknown", ""⟩
  titleHadSeparator : Bool := false
  downloadRes : Except String String := .error "download failed"
  downloadedExt : String := ""
  thumb : Option String := none
  fingerprintRes : Except String (Option MatchResult) := .ok none
  harmonicRes : Except String (Int × String × List Int) := .ok (0, "", [])
  normalizeRes : Except String Unit := .ok ()
  transcodeRes : Except String Unit := .ok ()
  tagRes : Except String Unit := .ok ()
  sidecarRes : Except String Unit := .ok ()
  dbRes : Except String Unit := .ok ()
  trackId : String := ""
  deriving DecidableEq, Repr

/-- Observable outcome of one item run: the events passed to broadcast in
order, the names of the external stages that actually executed, the pending
context left in `_pending_uploads`, and the file-system/database effects. -/
structure ItemRun where
  events : List Event := []
  stagesRun : List String := []
  pending : Option PendingCtx := none
  workDirCreated : Bool := false
  workDirRemoved : Bool := false
  sidecarWritten : Bool := false
  dbCommitted : Bool := false
  deriving DecidableEq, Repr

/-- Message of the AttributeError raised when `job.completed_ids` is read
(exact CPython text abbreviated). -/
def attrErrMsg : String := "AttributeError: Job object has no attribute completed_ids"

/-- Reading `job.completed_ids` (pipeline.py line 45): the Job dataclass
(job_manager.py lines 8-13) declares no `completed_ids` field and no code
ever assigns one, so Python attribute lookup raises AttributeError. -/
def getCompletedIds (_job : Job) : Except String (List String) :=
  .error attrErrMsg

/-- `job.completed_ids.append(track_id)` (pipeline.py line 444, upload.py
line 269): the attribute lookup raises before any append can happen. -/
def appendCompletedId (_job : Job) (_trackId : String) : Except String Unit :=
  .error attrErrMsg

/-- The local `progress` helper (pipeline.py lines 144-152): broadcast an
item-progress event unless the cancel flag reads true. -/
def progressEvt (cancelRead : Bool) (jobId itemId url stage : String) : List Event :=
  if cancelRead then [] else [Event.itemProgress jobId itemId url stage]

/-- ext_map lookup with ".aiff" fallback (pipeline.py lines 316-317); the
map covers every AudioFormat value, so the fallback is never taken. -/
def extOf : AudioFormat → String
  | .aiff => ".aiff"
  | .wav => ".wav"
  | .flac => ".flac"
  | .mp3 => ".mp3"

/-- Tail of `_process_one` from stage 5 on (pipeline.py lines 328-448),
still inside the inner try whose finally (lines 450-452) removes the work
directory on every exit.  `pre` carries the events already broadcast.
Stage 5 runs loudnorm_two_pass in dj-safe+normalize mode; otherwise it
renames in place when the downloaded extension already matches and
normalization is off, or transcodes.  Stage 6 applies tags; stage 7 writes
the sidecar, inserts the library row, commits, and then evaluates
`job.completed_ids.append(track_id)` — whose AttributeError sends even a
fully successful item into the outer except clause (lines 454-464). -/
def process_one_tail (env : ItemEnv) (cancel : Nat → Bool) (job : Job)
    (item : QueueItemInput) (req : QueueStartRequest) (pre : List Event) : ItemRun :=
  let jid := job.id
  let url := item.url
  let s0 : List String := ["metadata", "classify", "download", "fingerprint", "analysis"]
  let finalExt := extOf req.audio_format
  let isSame := (env.downloadedExt = ".m4a" ∧ req.audio_format = AudioFormat.mp3) ∨
    env.downloadedExt = finalExt
  let doNorm := req.normalize_enabled ∧ req.mode = DownloadMode.djSafe
  let p5 := progressEvt (cancel 9) jid item.id url (if doNorm then "normalize" else "transcode")
  let step5 : Except String Unit × List String :=
    if doNorm then
      (env.normalizeRes, s0 ++ ["normalize"])
    else if ¬req.normalize_enabled ∧ isSame ∧ env.downloadedExt = finalExt then
      (Except.ok (), s0)
    else
      (env.transcodeRes, s0 ++ ["transcode"])
  match step5.1 with
  | .error e5 =>
    { events := pre ++ p5 ++ [Event.itemError jid item.id url e5]
      stagesRun := step5.2, workDirCreated := true, workDirRemoved := true }
  | .ok _ =>
    let pTag := progressEvt (cancel 10) jid item.id url "tag"
    match env.tagRes with
    | .error tagErr =>
      { events := pre ++ p5 ++ pTag ++ [Event.itemError jid item.id url tagErr]
        stagesRun := step5.2 ++ ["tag"], workDirCreated := true, workDirRemoved := true }
    | .ok _ =>
      let pFin := progressEvt (cancel 11) jid item.id url "finalize"
      match env.sidecarRes with
      | .error scErr =>
        { events := pre ++ p5 ++ pTag ++ pFin ++ [Event.itemError jid item.id url scErr]
          stagesRun := step5.2 ++ ["tag", "finalize"]
          workDirCreated := true, workDirRemoved := true }
      | .ok _ =>
        match env.dbRes with
        | .error dbErr =>
          { events := pre ++ p5 ++ pTag ++ pFin ++ [Event.itemError jid item.id url dbErr]
            stagesRun := step5.2 ++ ["tag", "finalize"], sidecarWritten := true
            workDirCreated := true, workDirRemoved := true }
        | .ok _ =>
          match appendCompletedId job env.trackId with
          | .error aErr =>
            { events := pre ++ p5 ++ pTag ++ pFin ++ [Event.itemError jid item.id url aErr]
              stagesRun := step5.2 ++ ["tag", "finalize"]
              sidecarWritten := true, dbCommitted := true
              workDirCreated := true, workDirRemoved := true }
          | .ok _ =>
            { events := pre ++ p5 ++ pTag ++ pFin ++ [Event.itemDone jid item.id url]
              stagesRun := step5.2 ++ ["tag", "finalize"]
              sidecarWritten := true, dbCommitted := true
              workDirCreated := true, workDirRemoved := true }

/-- Shallow embedding of `_process_one` (pipeline.py lines 135-464).
`cancel k` is the value of `job.cancel_requested` at its k-th read in
program order: 0 = progress "metadata"; 1 = the check after metadata
(line 194); 2 = progress "classify"; 3 = the check opening the inner try
(line 219); 4 = progress "download"; 5 = the check before fingerprint
(line 262); 6 = progress "fingerprint"; 7 = progress "analysis"; 8 = the
check before output-format selection (line 311); 9 = progress
"normalize"/"transcode"; 10 = progress "tag"; 11 = progress "finalize".
The metadata-failure path (lines 159-189) returns before the inner try, so
only it leaves the created work directory in place; every path through the
inner try — including the download-failure early return of line 252 — runs
the finally of lines 450-452 and removes the work directory. -/
def process_one (env : ItemEnv) (cancel : Nat → Bool) (job : Job)
    (item : QueueItemInput) (req : QueueStartRequest) : ItemRun :=
  let url := item.url
  let dj := item.preset_snapshot
  let jid := job.id
  let e0 : List Event := [Event.itemStart jid item.id url]
  let pMeta := progressEvt (cancel 0) jid item.id url "metadata"
  match env.fetchInfo with
  | .error metaErr =>
    let source_id := env.synthId
    let work_dir := req.inbox_dir ++ "/.dropcrate_tmp_" ++ source_id
    { events := e0 ++ pMeta ++
        [Event.itemUploadNeeded jid item.id url
          ("YouTube video (" ++ source_id ++ ")") metaErr]
      stagesRun := ["metadata"]
      pending := some
        { job_id := jid, item_id := item.id, url := url
          info := { vid := some source_id, title := some "Unknown Title" }
          source_url := url, source_id := source_id
          normalized := ⟨"Unknown", "Unknown", ""⟩
          classification := ⟨pyOrS dj.genre "Other", dj.energy, dj.time, dj.vibe⟩
          title_had_separator := false
          dj_defaults := dj
          work_dir := work_dir, inbox_dir := req.inbox_dir, req := req }
      workDirCreated := true }
  | .ok info =>
    let source_url := pyOr info.webpage_url url
    let source_id := pyOr info.vid env.srcIdHash
    if cancel 1 then
      { events := e0 ++ pMeta ++ [Event.itemError jid item.id url "Cancelled"]
        stagesRun := ["metadata"] }
    else
      let pCls := progressEvt (cancel 2) jid item.id url "classify"
      let cls := env.classification
      let egenre := effective_genre dj.genre cls.genre
      let eenergy := effective_field dj.energy cls.energy
      let etime := effective_field dj.time cls.time
      let evibe := effective_field dj.vibe cls.vibe
      let work_dir := req.inbox_dir ++ "/.dropcrate_tmp_" ++ source_id
      let pre := e0 ++ pMeta ++ pCls
      if cancel 3 then
        { events := pre ++ [Event.itemError jid item.id url "Cancelled"]
          stagesRun := ["metadata", "classify"]
          workDirCreated := true, workDirRemoved := true }
      else
        let pDl := progressEvt (cancel 4) jid item.id url "download"
        match env.downloadRes with
        | .error dlErr =>
          { events := pre ++ pDl ++
              [Event.itemUploadNeeded jid item.id url (pyOr info.title "Unknown") dlErr]
            stagesRun := ["metadata", "classify", "download"]
            pending := some
              { job_id := jid, item_id := item.id, url := url
                info := info
                source_url := source_url, source_id := source_id
                normalized := env.normalized
                classification := ⟨egenre, eenergy, etime, evibe⟩
                title_had_separator := env.titleHadSeparator
                dj_defaults := dj
                work_dir := work_dir, inbox_dir := req.inbox_dir, req := req }
            workDirCreated := true, workDirRemoved := true }
        | .ok _path =>
          if cancel 5 then
            { events := pre ++ pDl ++ [Event.itemError jid item.id url "Cancelled"]
              stagesRun := ["metadata", "classify", "download"]
              workDirCreated := true, workDirRemoved := true }
          else
            let pFp := progressEvt (cancel 6) jid item.id url "fingerprint"
            match env.fingerprintRes with
            | .error fpErr =>
              { events := pre ++ pDl ++ pFp ++ [Event.itemError jid item.id url fpErr]
                stagesRun := ["metadata", "classify", "download", "fingerprint"]
                workDirCreated := true, workDirRemoved := true }
            | .ok _matched =>
              let pAn := progressEvt (cancel 7) jid item.id url "analysis"
              match env.harmonicRes with
              | .error anErr =>
                { events := pre ++ pDl ++ pFp ++ pAn ++
                    [Event.itemError jid item.id url anErr]
                  stagesRun := ["metadata", "classify", "download", "fingerprint", "analysis"]
                  workDirCreated := true, workDirRemoved := true }
              | .ok _bk =>
                if cancel 8 then
                  { events := pre ++ pDl ++ pFp ++ pAn ++
                      [Event.itemError jid item.id url "Cancelled"]
                    stagesRun := ["metadata", "classify", "download", "fingerprint", "analysis"]
                    workDirCreated := true, workDirRemoved := true }
                else
                  process_one_tail env cancel job item req (pre ++ pDl ++ pFp ++ pAn)

/-- `_process_with_semaphore` (pipeline.py lines 121-132): after acquiring
the semaphore, a set cancel flag short-circuits to a single "Cancelled"
item-error without entering `_process_one`. -/
def process_with_semaphore (preCancel : Bool) (env : ItemEnv) (cancel : Nat → Bool)
    (job : Job) (item : QueueItemInput) (req : QueueStartRequest) : ItemRun :=
  if preCancel then
    { events := [Event.itemError job.id item.id item.url "Cancelled"] }
  else
    process_one env cancel job item req

/-- `_maybe_generate_rekordbox_xml` (pipeline.py lines 39-79).  The guard
`if not job.completed_ids` (line 45) sits before the try of line 47, so its
AttributeError propagates to the caller.  `xmlBody` abstracts the whole try
body (settings check, db reads, XML write, with its internal early
returns): ok = completed without exception, error = the exception message
caught at line 70 and downgraded to a warning event. -/
def maybe_generate_rekordbox_xml (job : Job) (xmlBody : Except String Unit) :
    Except String (List Event) :=
  match getCompletedIds job with
  | .error e => .error e
  | .ok ids =>
    if ids.isEmpty then .ok []
    else
      match xmlBody with
      | .ok _ => .ok []
      | .error msg =>
        .ok [Event.warning job.id ("Rekordbox XML generation failed: " ++ msg)]

/-- Shallow embedding of `run_pipeline` (pipeline.py lines 82-119).  The
result is the ordered trace of events passed to broadcast plus the message
of an exception escaping run_pipeline, if any.  `pres i` is the cancel-flag
read of item i in `_process_with_semaphore`; `cancels i` its reads inside
`_process_one`.  Cross-item interleaving of events under the semaphore is
scheduler-dependent; the trace lists item traces in submission order, which
fixes one legal interleaving — no property proved here depends on that
choice.  gather runs with return_exceptions=True and
`_process_with_semaphore` catches every exception internally, so the
post-gather item-error loop (lines 103-113) contributes nothing. -/
def run_pipeline (envs : List ItemEnv) (pres : Nat → Bool)
    (cancels : Nat → Nat → Bool) (xmlBody : Except String Unit)
    (job : Job) (req : QueueStartRequest) : List Event × Option String :=
  let e0 := Event.queueStart job.id req.items.length req.inbox_dir req.mode.value
  let runs := (req.items.zip envs).enum.map fun p =>
    process_with_semaphore (pres p.1) p.2.2 (cancels p.1) job p.2.1 req
  let itemEvents := (runs.map ItemRun.events).flatten
  match maybe_generate_rekordbox_xml job xmlBody with
  | .error e => (e0 :: itemEvents, some e)
  | .ok ws => (e0 :: itemEvents ++ ws ++ [Event.queueDone job.id], none)

/-! ## Resume Controller (routers/upload.py) -/

/-- Allowed upload extensions (upload.py line 31). -/
def ALLOWED_EXTENSIONS : List String :=
  [".mp3", ".m4a", ".wav", ".aiff", ".flac", ".ogg", ".opus", ".wma", ".webm"]

/-- Python `str.lower()`, characterwise. -/
def pyLower (s : String) : String := (s.toList.map Char.toLower).asString

/-- Index (from 0, in characters) of the last "." in a character list. -/
def lastDotIdx (cs : List Char) : Option Nat :=
  ((cs.enum.filter fun p => p.2 == '.').map Prod.fst).getLast?

/-- pathlib `Path(filename).suffix`: the extension of the final path
component (the characters after the last "/") — the substring from its
last dot, when that dot is neither the first nor the last character of the
name; otherwise empty. -/
def pathSuffix (filename : String) : String :=
  let name := filename.toList.foldl (fun acc c => if c = '/' then [] else acc ++ [c]) []
  match lastDotIdx name with
  | none => ""
  | some i => if 0 < i ∧ i + 1 < name.length then (name.drop i).asString else ""

/-- Responses of the upload endpoint, by case: the two error returns of
upload.py lines 39 and 45, and the ok return of line 58. -/
inductive UploadResp where
  | errNoCtx
  | errBadExt (ext : String)
  | accepted
  deriving DecidableEq, Repr

/-- Observable outcome of one call of the upload endpoint: the response,
the `_pending_uploads` map afterwards, and — when the pipeline was resumed —
the context used together with the path the upload was saved under. -/
structure UploadOutcome where
  resp : UploadResp
  pendingAfter : List (String × PendingCtx)
  resumeStarted : Option (PendingCtx × String)
  deriving DecidableEq, Repr

/-- Python `dict.pop(k, None)`: the value (when present) and the dict
without that key. -/
def dictPop {α : Type} (m : List (String × α)) (k : String) :
    Option α × List (String × α) :=
  match m.find? fun p => p.1 == k with
  | some p => (some p.2, m.eraseP fun q => q.1 == k)
  | none => (none, m)

/-- `upload_audio_for_item` (upload.py lines 34-58): pop the pending
context (absence → error), validate the lower-cased extension of the
supplied filename against the allow-list (failure → restore the context
and error), otherwise save the file as `uploaded<ext>` in the stored work
directory and spawn `_resume_pipeline`. -/
def upload_audio_for_item (pending : List (String × PendingCtx))
    (itemId : String) (filename : String) : UploadOutcome :=
  match dictPop pending itemId with
  | (none, m) => { resp := .errNoCtx, pendingAfter := m, resumeStarted := none }
  | (some ctx, m) =>
    let ext := pyLower (pathSuffix filename)
    if ext ∉ ALLOWED_EXTENSIONS then
      { resp := .errBadExt ext, pendingAfter := dictInsert m itemId ctx
        resumeStarted := none }
    else
      { resp := .accepted, pendingAfter := m
        resumeStarted := some (ctx, ctx.work_dir ++ "/uploaded" ++ ext) }

/-- Outcomes of the external collaborators for one resumed run
(upload.py `_resume_pipeline`).  `uploadedExt` is the suffix of the saved
upload, which plays the role of the downloaded extension. -/
structure ResumeEnv where
  thumb : Option String := none
  fingerprintRes : Except String (Option MatchResult) := .ok none
  harmonicRes : Except String (Int × String × List Int) := .ok (0, "", [])
  normalizeRes : Except String Unit := .ok ()
  transcodeRes : Except String Unit := .ok ()
  tagRes : Except String Unit := .ok ()
  sidecarRes : Except String Unit := .ok ()
  dbRes : Except String Unit := .ok ()
  uploadedExt : String := ".mp3"
  trackId : String := ""
  deriving DecidableEq, Repr

/-- Observable outcome of one `_resume_pipeline` run. -/
structure ResumeRun where
  events : List Event := []
  stagesRun : List String := []
  sidecarWritten : Bool := false
  dbCommitted : Bool := false
  workDirRemoved : Bool := false
  deriving DecidableEq, Repr

/-- Broadcast guarded by `if job:` (upload.py lines 76-90 and 268-284):
with no resolved job nothing is emitted. -/
def guardEvt (jobOpt : Option Job) (e : Event) : List Event :=
  match jobOpt with
  | some _ => [e]
  | none => []

/-- Shallow embedding of `_resume_pipeline` (upload.py lines 61-287).
`jobOpt` is `job_manager.get_job(ctx["job_id"])`; every broadcast in the
function is guarded by `if job:`.  The effective tag values come straight
from the stored context (lines 130-133, no re-merge).  The finally of line
285-286 removes the work directory on every path.  On the success path with
a resolved job, `job.completed_ids.append` (line 269) raises AttributeError
exactly as in the batch pipeline; with no resolved job the whole
`if job:` block — append and item-done broadcast — is skipped, so the run
completes without any exception and without any event. -/
def resume_pipeline (env : ResumeEnv) (jobOpt : Option Job) (ctx : PendingCtx) : ResumeRun :=
  let jid := ctx.job_id
  let iid := ctx.item_id
  let url := ctx.url
  let e0 := guardEvt jobOpt (Event.itemStart jid iid url)
  let pFp := guardEvt jobOpt (Event.itemProgress jid iid url "fingerprint")
  match env.fingerprintRes with
  | .error fpErr =>
    { events := e0 ++ pFp ++ guardEvt jobOpt (Event.itemError jid iid url fpErr)
      stagesRun := ["fingerprint"], workDirRemoved := true }
  | .ok _m =>
    let pAn := guardEvt jobOpt (Event.itemProgress jid iid url "analysis")
    match env.harmonicRes with
    | .error anErr =>
      { events := e0 ++ pFp ++ pAn ++ guardEvt jobOpt (Event.itemError jid iid url anErr)
        stagesRun := ["fingerprint", "analysis"], workDirRemoved := true }
    | .ok _bk =>
      let finalExt := extOf ctx.req.audio_format
      let doNorm := ctx.req.normalize_enabled ∧ ctx.req.mode = DownloadMode.djSafe
      let p5 := guardEvt jobOpt
        (Event.itemProgress jid iid url (if doNorm then "normalize" else "transcode"))
      let step5 : Except String Unit × List String :=
        if doNorm then (env.normalizeRes, ["fingerprint", "analysis", "normalize"])
        else if env.uploadedExt = finalExt then (Except.ok (), ["fingerprint", "analysis"])
        else (env.transcodeRes, ["fingerprint", "analysis", "transcode"])
      match step5.1 with
      | .error e5 =>
        { events := e0 ++ pFp ++ pAn ++ p5 ++ guardEvt jobOpt (Event.itemError jid iid url e5)
          stagesRun := step5.2, workDirRemoved := true }
      | .ok _ =>
        let pTag := guardEvt jobOpt (Event.itemProgress jid iid url "tag")
        match env.tagRes with
        | .error tErr =>
          { events := e0 ++ pFp ++ pAn ++ p5 ++ pTag ++
              guardEvt jobOpt (Event.itemError jid iid url tErr)
            stagesRun := step5.2 ++ ["tag"], workDirRemoved := true }
        | .ok _ =>
          let pFin := guardEvt jobOpt (Event.itemProgress jid iid url "finalize")
          let pre := e0 ++ pFp ++ pAn ++ p5 ++ pTag ++ pFin
          match env.sidecarRes with
          | .error scErr =>
            { events := pre ++ guardEvt jobOpt (Event.itemError jid iid url scErr)
              stagesRun := step5.2 ++ ["tag", "finalize"], workDirRemoved := true }
          | .ok _ =>
            match env.dbRes with
            | .error dbErr =>
              { events := pre ++ guardEvt jobOpt (Event.itemError jid iid url dbErr)
                stagesRun := step5.2 ++ ["tag", "finalize"]
                sidecarWritten := true, workDirRemoved := true }
            | .ok _ =>
              match jobOpt with
              | none =>
                { events := pre
                  stagesRun := step5.2 ++ ["tag", "finalize"]
                  sidecarWritten := true, dbCommitted := true, workDirRemoved := true }
              | some job =>
                match appendCompletedId job env.trackId with
                | .error aErr =>
                  { events := pre ++ [Event.itemError jid iid url aErr]
                    stagesRun := step5.2 ++ ["tag", "finalize"]
                    sidecarWritten := true, dbCommitted := true, workDirRemoved := true }
                | .ok _ =>
                  { events := pre ++ [Event.itemDone jid iid url]
                    stagesRun := step5.2 ++ ["tag", "finalize"]
                    sidecarWritten := true, dbCommitted := true, workDirRemoved := true }

/-! ## Claim theorems -/

/-- Merge policy for the genre as the claim states it: the caller preset
wins when present and not the "Other" sentinel; else the automatically
classified genre when present; else "Other". -/
def spec_effective_genre (preset : String) (auto : Option String) : String :=
  if preset ≠ "" ∧ preset ≠ "Other" then preset
  else
    match auto with
    | some g => if g ≠ "" then g else "Other"
    | none => "Other"

/-- C4: the effective genre computed by the pipeline equals the
spec-described merge for every preset/automatic pair, and in particular
preset "Afro House" with automatic "Techno" yields "Afro House" while the
sentinel preset "Other" with automatic "Techno" yields "Techno". -/
theorem effective_genre_claim :
    (∀ (preset : String) (auto : Option String),
        effective_genre preset auto = spec_effective_genre preset auto) ∧
      effective_genre "Afro House" (some "Techno") = "Afro House" ∧
      effective_genre "Other" (some "Techno") = "Techno" := by
  refine ⟨fun preset auto => ?_, by decide, by decide⟩
  unfold effective_genre spec_effective_genre
  split
  · rfl
  · cases auto with
    | none => rfl
    | some g => by_cases hg : g = "" <;> simp [pyOr, hg]

/-- Erasing the first entry with key `k` does not change lookups of a
different key. -/
theorem find?_eraseP_key {α : Type} (m : List (String × α)) (k k' : String)
    (h : ¬ k' = k) :
    ((m.eraseP fun q => q.1 == k).find? fun p => p.1 == k') =
      m.find? fun p => p.1 == k' := by
  induction m with
  | nil => rfl
  | cons a m ih =>
    by_cases ha : (a.1 == k) = true
    · simp only [List.eraseP_cons, ha, cond_true]
      have hak : a.1 = k := by simpa using ha
      have hne : (a.1 == k') = false := by
        simp [hak]
        intro hk; exact absurd hk.symm h
      rw [List.find?_cons]
      simp only [hne]
    · have ha2 : (a.1 == k) = false := by simpa using ha
      simp only [List.eraseP_cons, ha2, cond_false]
      rw [List.find?_cons, List.find?_cons]
      cases hb : ((fun p => p.1 == k') a) <;> simp [ih]

/-- Appending an entry whose key does not match leaves `find?` unchanged. -/
theorem find?_append_right_nomatch {α : Type} (l : List α) (a : α) (p : α → Bool)
    (ha : p a = false) : (l ++ [a]).find? p = l.find? p := by
  induction l with
  | nil => simp [List.find?, ha]
  | cons b l ih =>
    rw [List.cons_append, List.find?_cons, List.find?_cons]
    cases p b <;> simp [ih]

/-- With pairwise-distinct keys, erasing the entry of key `k` leaves no
entry with key `k`. -/
theorem any_eraseP_self {α : Type} (m : List (String × α)) (k : String)
    (hnd : (m.map Prod.fst).Nodup) :
    ((m.eraseP fun q => q.1 == k).any fun p => p.1 == k) = false := by
  induction m with
  | nil => rfl
  | cons a m ih =>
    simp only [List.map_cons, List.nodup_cons] at hnd
    by_cases ha : (a.1 == k) = true
    · simp only [List.eraseP_cons, ha, cond_true]
      have hak : a.1 = k := by simpa using ha
      rw [List.any_eq_false]
      intro p hp
      have : p.1 ∈ m.map Prod.fst := List.mem_map_of_mem Prod.fst hp
      simp only [Bool.not_eq_true, beq_eq_false_iff_ne, ne_eq]
      intro hpk
      exact hnd.1 (by rw [hak, ← hpk]; exact this)
    · have ha2 : (a.1 == k) = false := by simpa using ha
      simp only [List.eraseP_cons, ha2, cond_false]
      simp only [List.any_cons, ha2, Bool.false_or]
      exact ih hnd.2

/-- Outcome of the upload endpoint when no context is pending. -/
theorem upload_eq_none (pending : List (String × PendingCtx)) (itemId filename : String)
    (hf : (pending.find? fun p => p.1 == itemId) = none) :
    upload_audio_for_item pending itemId filename =
      { resp := .errNoCtx, pendingAfter := pending, resumeStarted := none } := by
  unfold upload_audio_for_item dictPop
  rw [hf]

/-- Outcome of the upload endpoint on a disallowed extension. -/
theorem upload_eq_badext (pending : List (String × PendingCtx)) (itemId filename : String)
    (p : String × PendingCtx)
    (hf : (pending.find? fun q => q.1 == itemId) = some p)
    (hext : pyLower (pathSuffix filename) ∉ ALLOWED_EXTENSIONS) :
    upload_audio_for_item pending itemId filename =
      { resp := .errBadExt (pyLower (pathSuffix filename))
        pendingAfter := dictInsert (pending.eraseP fun q => q.1 == itemId) itemId p.2
        resumeStarted := none } := by
  unfold upload_audio_for_item dictPop
  rw [hf]
  show (if pyLower (pathSuffix filename) ∉ ALLOWED_EXTENSIONS then
          ({ resp := .errBadExt (pyLower (pathSuffix filename))
             pendingAfter := dictInsert (pending.eraseP fun q => q.1 == itemId) itemId p.2
             resumeStarted := none } : UploadOutcome)
        else
          { resp := .accepted, pendingAfter := pending.eraseP fun q => q.1 == itemId
            resumeStarted :=
              some (p.2, p.2.work_dir ++ "/uploaded" ++ pyLower (pathSuffix filename)) }) = _
  rw [if_pos hext]

/-- Outcome of the upload endpoint on an allowed extension. -/
theorem upload_eq_ok (pending : List (String × PendingCtx)) (itemId filename : String)
    (p : String × PendingCtx)
    (hf : (pending.find? fun q => q.1 == itemId) = some p)
    (hext : pyLower (pathSuffix filename) ∈ ALLOWED_EXTENSIONS) :
    upload_audio_for_item pending itemId filename =
      { resp := .accepted, pendingAfter := pending.eraseP fun q => q.1 == itemId
        resumeStarted :=
          some (p.2, p.2.work_dir ++ "/uploaded" ++ pyLower (pathSuffix filename)) } := by
  unfold upload_audio_for_item dictPop
  rw [hf]
  show (if pyLower (pathSuffix filename) ∉ ALLOWED_EXTENSIONS then
          ({ resp := .errBadExt (pyLower (pathSuffix filename))
             pendingAfter := dictInsert (pending.eraseP fun q => q.1 == itemId) itemId p.2
             resumeStarted := none } : UploadOutcome)
        else
          { resp := .accepted, pendingAfter := pending.eraseP fun q => q.1 == itemId
            resumeStarted :=
              some (p.2, p.2.work_dir ++ "/uploaded" ++ pyLower (pathSuffix filename)) }) = _
  rw [if_neg (not_not_intro hext)]

/-- C5: the upload endpoint returns an error and starts nothing when no
pending context exists (leaving the map untouched); on a disallowed
extension it returns an error, starts nothing, and the restored map agrees
with the original on every key; only an allowed extension consumes the
context and spawns the resumed pipeline with the stored context. -/
theorem upload_endpoint_claim (pending : List (String × PendingCtx))
    (itemId filename : String)
    (hnd : (pending.map Prod.fst).Nodup) :
    (dictGet pending itemId = none →
        (upload_audio_for_item pending itemId filename).resp = .errNoCtx ∧
        (upload_audio_for_item pending itemId filename).resumeStarted = none ∧
        (upload_audio_for_item pending itemId filename).pendingAfter = pending) ∧
      (∀ ctx, dictGet pending itemId = some ctx →
        pyLower (pathSuffix filename) ∉ ALLOWED_EXTENSIONS →
          (upload_audio_for_item pending itemId filename).resp =
            .errBadExt (pyLower (pathSuffix filename)) ∧
          (upload_audio_for_item pending itemId filename).resumeStarted = none ∧
          ∀ k, dictGet (upload_audio_for_item pending itemId filename).pendingAfter k =
            dictGet pending k) ∧
      (∀ ctx, dictGet pending itemId = some ctx →
        pyLower (pathSuffix filename) ∈ ALLOWED_EXTENSIONS →
          (upload_audio_for_item pending itemId filename).resp = .accepted ∧
          (upload_audio_for_item pending itemId filename).resumeStarted =
            some (ctx, ctx.work_dir ++ "/uploaded" ++ pyLower (pathSuffix filename)) ∧
          dictGet (upload_audio_for_item pending itemId filename).pendingAfter itemId =
            none) := by
  refine ⟨?_, ?_, ?_⟩
  · intro hnone
    have hf : (pending.find? fun p => p.1 == itemId) = none := by
      unfold dictGet at hnone
      cases hf : pending.find? fun p => p.1 == itemId with
      | none => rfl
      | some p => rw [hf] at hnone; exact absurd hnone (by simp)
    rw [upload_eq_none pending itemId filename hf]
    exact ⟨rfl, rfl, rfl⟩
  · intro ctx hsome hext
    unfold dictGet at hsome
    cases hf : pending.find? fun p => p.1 == itemId with
    | none => rw [hf] at hsome; exact absurd hsome (by simp)
    | some p =>
      rw [hf] at hsome
      have hp2 : p.2 = ctx := by simpa using hsome
      rw [upload_eq_badext pending itemId filename p hf hext]
      refine ⟨rfl, rfl, fun k => ?_⟩
      show dictGet (dictInsert (pending.eraseP fun q => q.1 == itemId) itemId p.2) k =
        dictGet pending k
      unfold dictGet dictInsert
      rw [show ((pending.eraseP fun q => q.1 == itemId).any fun q => q.1 == itemId) = false from
        any_eraseP_self pending itemId hnd]
      simp only [Bool.false_eq_true, if_false]
      by_cases hk : k = itemId
      · subst hk
        rw [find?_append_of_none]
        · rw [List.find?_cons_of_pos _ (by simp), hf]
          simp
        · rw [List.find?_eq_none]
          intro q hq
          have := List.any_eq_false.mp (any_eraseP_self pending k hnd) q hq
          simpa using this
      · rw [find?_append_right_nomatch _ _ _ (by simpa using fun hh => hk hh.symm)]
        rw [find?_eraseP_key pending itemId k hk]
  · intro ctx hsome hext
    unfold dictGet at hsome
    cases hf : pending.find? fun p => p.1 == itemId with
    | none => rw [hf] at hsome; exact absurd hsome (by simp)
    | some p =>
      rw [hf] at hsome
      have hp2 : p.2 = ctx := by simpa using hsome
      rw [upload_eq_ok pending itemId filename p hf hext]
      refine ⟨rfl, by rw [hp2], ?_⟩
      show ((pending.eraseP fun q => q.1 == itemId).find? fun q => q.1 == itemId).map
        Prod.snd = none
      rw [List.find?_eq_none.mpr]
      · rfl
      · intro q hq
        have := List.any_eq_false.mp (any_eraseP_self pending itemId hnd) q hq
        simpa using this
/-- C10: a resumed pipeline whose stored job id no longer resolves (the
job was cleaned up) still runs the remaining stages, writes the sidecar and
persists the library record, broadcasts no events at all — in particular no
terminal item-done or item-error — and still removes the working directory.
With no job the `if job:` guard also skips the completed_ids append, so the
run finishes without the AttributeError of the with-job path. -/
theorem resume_without_job_claim (env : ResumeEnv) (ctx : PendingCtx)
    (hfp : ∃ m, env.fingerprintRes = .ok m)
    (han : ∃ bk, env.harmonicRes = .ok bk)
    (hn : env.normalizeRes = .ok ())
    (ht : env.transcodeRes = .ok ())
    (htag : env.tagRes = .ok ())
    (hsc : env.sidecarRes = .ok ())
    (hdb : env.dbRes = .ok ()) :
    (resume_pipeline env none ctx).events = [] ∧
      (resume_pipeline env none ctx).sidecarWritten = true ∧
      (resume_pipeline env none ctx).dbCommitted = true ∧
      (resume_pipeline env none ctx).workDirRemoved = true ∧
      "fingerprint" ∈ (resume_pipeline env none ctx).stagesRun ∧
      "analysis" ∈ (resume_pipeline env none ctx).stagesRun ∧
      "tag" ∈ (resume_pipeline env none ctx).stagesRun ∧
      "finalize" ∈ (resume_pipeline env none ctx).stagesRun := by
  obtain ⟨m, hm⟩ := hfp
  obtain ⟨bk, hbk⟩ := han
  by_cases hdn : ctx.req.normalize_enabled ∧ ctx.req.mode = DownloadMode.djSafe
  · simp [resume_pipeline, guardEvt, hm, hbk, hdn, hn, htag, hsc, hdb]
  · by_cases hext : env.uploadedExt = extOf ctx.req.audio_format
    · simp [resume_pipeline, guardEvt, hm, hbk, hdn, hext, htag, hsc, hdb]
    · simp [resume_pipeline, guardEvt, hm, hbk, hdn, hext, ht, htag, hsc, hdb]

/-- Concrete pending context used by witnesses. -/
def ctx0 : PendingCtx :=
  { job_id := "j", item_id := "i1", url := "u"
    info := {}, source_url := "u", source_id := "s"
    normalized := ⟨"A", "T", ""⟩
    classification := ⟨"Other", "", "", ""⟩
    title_had_separator := false
    dj_defaults := {}
    work_dir := "/inbox/.dropcrate_tmp_s", inbox_dir := "/inbox"
    req := { inbox_dir := "/inbox" } }

/-- Concrete resume environment where every external call succeeds. -/
def renv0 : ResumeEnv := {}

theorem resume_without_job_claim_witness :
    (resume_pipeline renv0 none ctx0).events = [] ∧
      (resume_pipeline renv0 none ctx0).sidecarWritten = true ∧
      (resume_pipeline renv0 none ctx0).dbCommitted = true ∧
      (resume_pipeline renv0 none ctx0).workDirRemoved = true ∧
      "fingerprint" ∈ (resume_pipeline renv0 none ctx0).stagesRun ∧
      "analysis" ∈ (resume_pipeline renv0 none ctx0).stagesRun ∧
      "tag" ∈ (resume_pipeline renv0 none ctx0).stagesRun ∧
      "finalize" ∈ (resume_pipeline renv0 none ctx0).stagesRun :=
  resume_without_job_claim renv0 ctx0 ⟨none, rfl⟩ ⟨(0, "", []), rfl⟩ rfl rfl rfl rfl rfl

theorem upload_endpoint_claim_witness :
    (upload_audio_for_item [("i1", ctx0)] "i1" "track.MP3").resp = .accepted ∧
      (upload_audio_for_item [("i1", ctx0)] "i1" "track.MP3").resumeStarted =
        some (ctx0, ctx0.work_dir ++ "/uploaded" ++ pyLower (pathSuffix "track.MP3")) ∧
      dictGet (upload_audio_for_item [("i1", ctx0)] "i1" "track.MP3").pendingAfter "i1" =
        none :=
  (upload_endpoint_claim [("i1", ctx0)] "i1" "track.MP3" (by simp)).2.2 ctx0
    (by decide) (by decide)

/-- C2 (code-bug exhibit): an item whose every stage succeeds — download,
fingerprint, analysis, normalize/transcode, tag, sidecar write and database
commit all ok, no cancellation — still terminates with an item-error whose
message is the AttributeError of `job.completed_ids.append` (pipeline.py
line 444, Job has no such field), and never broadcasts item-done; the
sidecar was written and the record committed before the failure. -/
theorem finalize_success_claim (env : ItemEnv) (cancel : Nat → Bool) (job : Job)
    (item : QueueItemInput) (req : QueueStartRequest)
    (hnc : ∀ k, cancel k = false)
    (hinfo : ∃ i, env.fetchInfo = .ok i)
    (hdl : ∃ p, env.downloadRes = .ok p)
    (hfp : ∃ m, env.fingerprintRes = .ok m)
    (han : ∃ bk, env.harmonicRes = .ok bk)
    (hn : env.normalizeRes = .ok ()) (ht : env.transcodeRes = .ok ())
    (htag : env.tagRes = .ok ()) (hsc : env.sidecarRes = .ok ())
    (hdb : env.dbRes = .ok ()) :
    (process_one env cancel job item req).sidecarWritten = true ∧
      (process_one env cancel job item req).dbCommitted = true ∧
      (process_one env cancel job item req).events.getLast? =
        some (Event.itemError job.id item.id item.url attrErrMsg) ∧
      ∀ j i u, Event.itemDone j i u ∉ (process_one env cancel job item req).events := by
  obtain ⟨i, hi⟩ := hinfo
  obtain ⟨p, hp⟩ := hdl
  obtain ⟨m, hm⟩ := hfp
  obtain ⟨bk, hbk⟩ := han
  by_cases hdn : req.normalize_enabled ∧ req.mode = DownloadMode.djSafe
  · simp [process_one, process_one_tail, progressEvt, appendCompletedId, hi, hp, hm, hbk,
      hnc 0, hnc 1, hnc 2, hnc 3, hnc 4, hnc 5, hnc 6, hnc 7, hnc 8, hnc 9, hnc 10, hnc 11,
      hdn, hn, htag, hsc, hdb]
  · by_cases hsame : req.normalize_enabled = false ∧
      ((env.downloadedExt = ".m4a" ∧ req.audio_format = AudioFormat.mp3) ∨
        env.downloadedExt = extOf req.audio_format) ∧
      env.downloadedExt = extOf req.audio_format
    · simp [process_one, process_one_tail, progressEvt, appendCompletedId, hi, hp, hm, hbk,
        hnc 0, hnc 1, hnc 2, hnc 3, hnc 4, hnc 5, hnc 6, hnc 7, hnc 8, hnc 9, hnc 10, hnc 11,
        hdn, hsame.1, hsame.2.1, hsame.2.2, htag, hsc, hdb]
    · simp [process_one, process_one_tail, progressEvt, appendCompletedId, hi, hp, hm, hbk,
        hnc 0, hnc 1, hnc 2, hnc 3, hnc 4, hnc 5, hnc 6, hnc 7, hnc 8, hnc 9, hnc 10, hnc 11,
        hdn, hsame, ht, htag, hsc, hdb]

/-- Concrete all-success environment used by the finalize witness. -/
def envAllOk : ItemEnv :=
  { fetchInfo := .ok {}, downloadRes := .ok "/w/x.m4a", trackId := "t" }

/-- Cancel flag that always reads false. -/
def cancelOff : Nat → Bool := fun _ => false

theorem finalize_success_claim_witness :
    (process_one envAllOk cancelOff ⟨"j", false, [], []⟩ ⟨"i", "u", {}⟩
        { inbox_dir := "/inbox" }).sidecarWritten = true ∧
      (process_one envAllOk cancelOff ⟨"j", false, [], []⟩ ⟨"i", "u", {}⟩
        { inbox_dir := "/inbox" }).dbCommitted = true ∧
      (process_one envAllOk cancelOff ⟨"j", false, [], []⟩ ⟨"i", "u", {}⟩
        { inbox_dir := "/inbox" }).events.getLast? =
        some (Event.itemError "j" "i" "u" attrErrMsg) := by
  have h := finalize_success_claim envAllOk cancelOff ⟨"j", false, [], []⟩ ⟨"i", "u", {}⟩
    { inbox_dir := "/inbox" } (fun _ => rfl) ⟨{}, rfl⟩ ⟨"/w/x.m4a", rfl⟩ ⟨none, rfl⟩
    ⟨(0, "", []), rfl⟩ rfl rfl rfl rfl rfl
  exact ⟨h.1, h.2.1, h.2.2.1⟩

/-- C3 (code-bug exhibit): a download failure stores the pending context
carrying the computed metadata/classification/title-normalization values
and ends with item-upload-needed, but the working directory IS removed —
the early return of pipeline.py line 252 still runs the finally of lines
450-452, contrary to the comment on line 252; the error outcomes likewise
remove it, and only the metadata-failure path keeps it. -/
theorem download_failure_claim (env : ItemEnv) (cancel : Nat → Bool) (job : Job)
    (item : QueueItemInput) (req : QueueStartRequest) (i : VideoInfo) (msg : String)
    (hinfo : env.fetchInfo = .ok i)
    (hdl : env.downloadRes = .error msg)
    (hc1 : cancel 1 = false) (hc3 : cancel 3 = false) :
    (process_one env cancel job item req).pending =
        some
          { job_id := job.id, item_id := item.id, url := item.url
            info := i
            source_url := pyOr i.webpage_url item.url
            source_id := pyOr i.vid env.srcIdHash
            normalized := env.normalized
            classification :=
              ⟨effective_genre item.preset_snapshot.genre env.classification.genre,
                effective_field item.preset_snapshot.energy env.classification.energy,
                effective_field item.preset_snapshot.time env.classification.time,
                effective_field item.preset_snapshot.vibe env.classification.vibe⟩
            title_had_separator := env.titleHadSeparator
            dj_defaults := item.preset_snapshot
            work_dir := req.inbox_dir ++ "/.dropcrate_tmp_" ++ pyOr i.vid env.srcIdHash
            inbox_dir := req.inbox_dir, req := req } ∧
      (process_one env cancel job item req).events.getLast? =
        some (Event.itemUploadNeeded job.id item.id item.url (pyOr i.title "Unknown") msg) ∧
      (process_one env cancel job item req).workDirRemoved = true := by
  simp [process_one, hinfo, hdl, hc1, hc3]
  simp only [← List.append_assoc, ← List.cons_append, List.getLast?_concat]

/-- Concrete environment whose download stage raises. -/
def envDlFail : ItemEnv := { fetchInfo := .ok {}, downloadRes := .error "HTTP 403" }

theorem download_failure_claim_witness :
    (process_one envDlFail cancelOff ⟨"j", false, [], []⟩ ⟨"i", "u", {}⟩
        { inbox_dir := "/inbox" }).pending.isSome = true ∧
      (process_one envDlFail cancelOff ⟨"j", false, [], []⟩ ⟨"i", "u", {}⟩
        { inbox_dir := "/inbox" }).events.getLast? =
        some (Event.itemUploadNeeded "j" "i" "u" "Unknown" "HTTP 403") ∧
      (process_one envDlFail cancelOff ⟨"j", false, [], []⟩ ⟨"i", "u", {}⟩
        { inbox_dir := "/inbox" }).workDirRemoved = true := by
  have h := download_failure_claim envDlFail cancelOff ⟨"j", false, [], []⟩ ⟨"i", "u", {}⟩
    { inbox_dir := "/inbox" } {} "HTTP 403" rfl rfl rfl rfl
  exact ⟨by rw [h.1]; rfl, h.2.1, h.2.2⟩

/-- Events an item run may broadcast: the item-scoped kinds only. -/
def itemScoped : Event → Bool
  | .queueStart _ _ _ _ => false
  | .warning _ _ => false
  | .queueDone _ => false
  | _ => true

theorem progressEvt_scoped (b : Bool) (j i u s : String) :
    (progressEvt b j i u s).all itemScoped = true := by
  cases b <;> rfl

theorem process_one_tail_scoped (env : ItemEnv) (cancel : Nat → Bool) (job : Job)
    (item : QueueItemInput) (req : QueueStartRequest) (pre : List Event)
    (hpre : pre.all itemScoped = true) :
    (process_one_tail env cancel job item req pre).events.all itemScoped = true := by
  simp only [process_one_tail]
  cases h5n : env.normalizeRes <;> cases h5t : env.transcodeRes <;>
    cases htg : env.tagRes <;> cases hscr : env.sidecarRes <;> cases hdbr : env.dbRes <;>
    by_cases hdn : req.normalize_enabled ∧ req.mode = DownloadMode.djSafe <;>
    by_cases hsf : req.normalize_enabled = false ∧
      ((env.downloadedExt = ".m4a" ∧ req.audio_format = AudioFormat.mp3) ∨
        env.downloadedExt = extOf req.audio_format) ∧
      env.downloadedExt = extOf req.audio_format <;>
    simp [hdn, hsf, h5n, h5t, htg, hscr, hdbr, appendCompletedId, List.all_append, hpre,
      progressEvt_scoped, itemScoped]

theorem process_one_scoped (env : ItemEnv) (cancel : Nat → Bool) (job : Job)
    (item : QueueItemInput) (req : QueueStartRequest) :
    (process_one env cancel job item req).events.all itemScoped = true := by
  simp only [process_one]
  cases hi : env.fetchInfo with
  | error m => simp [List.all_append, progressEvt_scoped, itemScoped]
  | ok info =>
    by_cases h1 : cancel 1 = true
    · simp [h1, List.all_append, progressEvt_scoped, itemScoped]
    · by_cases h3 : cancel 3 = true
      · simp [h1, h3, List.all_append, progressEvt_scoped, itemScoped]
      · cases hdl : env.downloadRes with
        | error d => simp [h1, h3, List.all_append, progressEvt_scoped, itemScoped]
        | ok pth =>
          by_cases h5 : cancel 5 = true
          · simp [h1, h3, h5, List.all_append, progressEvt_scoped, itemScoped]
          · cases hfp : env.fingerprintRes with
            | error f => simp [h1, h3, h5, List.all_append, progressEvt_scoped, itemScoped]
            | ok mm =>
              cases hha : env.harmonicRes with
              | error an =>
                simp [h1, h3, h5, List.all_append, progressEvt_scoped, itemScoped]
              | ok bk =>
                by_cases h8 : cancel 8 = true
                · simp [h1, h3, h5, h8, List.all_append, progressEvt_scoped, itemScoped]
                · simp only [h1, h3, h5, h8, if_false, Bool.false_eq_true]
                  exact process_one_tail_scoped _ _ _ _ _ _
                    (by simp [List.all_cons, List.all_append, progressEvt_scoped, itemScoped])

theorem process_with_semaphore_scoped (preCancel : Bool) (env : ItemEnv)
    (cancel : Nat → Bool) (job : Job) (item : QueueItemInput) (req : QueueStartRequest) :
    (process_with_semaphore preCancel env cancel job item req).events.all itemScoped
      = true := by
  unfold process_with_semaphore
  split
  · rfl
  · exact process_one_scoped env cancel job item req

/-- C1 (code-bug exhibit): run_pipeline never reaches its queue-done
broadcast.  `_maybe_generate_rekordbox_xml` evaluates `job.completed_ids`
(pipeline.py line 45) before entering its try, the Job dataclass has no
such field, and the resulting AttributeError propagates out of run_pipeline
(line 116 precedes the queue-done broadcast of line 118): for every batch
the task dies with the AttributeError and no queue-done event ever appears
in the trace. -/
theorem run_pipeline_claim (envs : List ItemEnv) (pres : Nat → Bool)
    (cancels : Nat → Nat → Bool) (xmlBody : Except String Unit)
    (job : Job) (req : QueueStartRequest) :
    (run_pipeline envs pres cancels xmlBody job req).2 = some attrErrMsg ∧
      (∀ e ∈ (run_pipeline envs pres cancels xmlBody job req).1,
        itemScoped e = true ∨ e = Event.queueStart job.id req.items.length
          req.inbox_dir req.mode.value) ∧
      ∀ e ∈ (run_pipeline envs pres cancels xmlBody job req).1,
        ∀ jid, e ≠ Event.queueDone jid := by
  have hmain : ∀ e ∈ (run_pipeline envs pres cancels xmlBody job req).1,
      itemScoped e = true ∨ e = Event.queueStart job.id req.items.length
        req.inbox_dir req.mode.value := by
    intro e he
    have he2 : e = Event.queueStart job.id req.items.length req.inbox_dir req.mode.value ∨
        e ∈ (((req.items.zip envs).enum.map fun p =>
          process_with_semaphore (pres p.1) p.2.2 (cancels p.1) job p.2.1 req).map
            ItemRun.events).flatten := by
      rw [show (run_pipeline envs pres cancels xmlBody job req).1 =
          Event.queueStart job.id req.items.length req.inbox_dir req.mode.value ::
            (((req.items.zip envs).enum.map fun p =>
              process_with_semaphore (pres p.1) p.2.2 (cancels p.1) job p.2.1 req).map
                ItemRun.events).flatten from rfl] at he
      simpa using he
    rcases he2 with he2 | he2
    · right; exact he2
    · left
      rw [List.mem_flatten] at he2
      obtain ⟨l, hl, hel⟩ := he2
      rw [List.mem_map] at hl
      obtain ⟨r, hr, hrl⟩ := hl
      rw [List.mem_map] at hr
      obtain ⟨p, _, hpr⟩ := hr
      subst hpr
      subst hrl
      exact List.all_eq_true.mp
        (process_with_semaphore_scoped (pres p.1) p.2.2 (cancels p.1) job p.2.1 req) e hel
  refine ⟨rfl, hmain, ?_⟩
  intro e he jid heq
  rcases hmain e he with h | h
  · rw [heq] at h
    exact absurd h (by simp [itemScoped])
  · rw [heq] at h
    exact Event.noConfusion h

theorem run_pipeline_claim_witness :
    (run_pipeline [] (fun _ => false) (fun _ _ => false) (.ok ())
        ⟨"j", false, [], []⟩ { inbox_dir := "/inbox" }).2 = some attrErrMsg ∧
      (itemScoped (Event.queueStart "j" 0 "/inbox" "dj-safe") = true ∨
        Event.queueStart "j" 0 "/inbox" "dj-safe" =
          Event.queueStart "j" ([] : List QueueItemInput).length "/inbox"
            (DownloadMode.djSafe).value) ∧
      Event.queueStart "j" 0 "/inbox" "dj-safe" ≠ Event.queueDone "j" := by
  have h := run_pipeline_claim [] (fun _ => false) (fun _ _ => false) (.ok ())
    ⟨"j", false, [], []⟩ { inbox_dir := "/inbox" }
  refine ⟨h.1, h.2.1 _ (by decide), h.2.2 _ (by decide) "j"⟩

/-- Environment where every stage succeeds, used for the cancellation
runs. -/
def env9 : ItemEnv :=
  { fetchInfo := .ok {}, downloadRes := .ok "/w/x.m4a", trackId := "t" }

/-- Cancel flag that becomes (and stays) set from its 7th read on: the
flag is still unset at the fingerprint check (read 5) and at the
fingerprint progress broadcast (read 6), and is set by the time the item
reaches the fingerprint-to-analysis stage boundary (read 7). -/
def cancel9 : Nat → Bool := fun k => decide (7 ≤ k)

/-- C9 (counterexample): with the flag set from read 7 on — i.e. set while
the fingerprint stage was in flight — the item crosses its next stage
boundary (fingerprint → harmonic analysis) and still runs the analysis
stage, because the code has no cancellation check there (the next check is
only at pipeline.py line 311); the item only aborts with the "Cancelled"
item-error afterwards.  This refutes "never runs another pipeline stage"
at a concrete input. -/
theorem cancellation_claim_counterexample :
    cancel9 6 = false ∧ cancel9 7 = true ∧
      "analysis" ∈ (process_one env9 cancel9 ⟨"j", false, [], []⟩ ⟨"i", "u", {}⟩
        { inbox_dir := "/inbox" }).stagesRun ∧
      (process_one env9 cancel9 ⟨"j", false, [], []⟩ ⟨"i", "u", {}⟩
        { inbox_dir := "/inbox" }).events.getLast? =
        some (Event.itemError "j" "i" "u" "Cancelled") := by
  refine ⟨rfl, rfl, by decide, by decide⟩

/-- C9 (amended): cooperative cancellation acts at the four checked
boundaries only.  An item that has not yet started when the flag is set
runs no stage and terminates with the single "Cancelled" item-error; an
item whose flag reads true at the check after metadata (read 1), before
download (read 3), before fingerprint (read 5) or before output-format
selection (read 8) terminates with a "Cancelled" item-error having run
exactly the stages before that check; stages between two checks may still
run after the flag is set, and an in-flight stage call is never
interrupted (stages are atomic in this embedding). -/
theorem cancellation_claim_amended (env : ItemEnv) (cancel : Nat → Bool)
    (job : Job) (item : QueueItemInput) (req : QueueStartRequest) :
    ((process_with_semaphore true env cancel job item req).events =
        [Event.itemError job.id item.id item.url "Cancelled"] ∧
      (process_with_semaphore true env cancel job item req).stagesRun = []) ∧
    (∀ i, env.fetchInfo = .ok i → cancel 1 = true →
      (process_one env cancel job item req).events.getLast? =
          some (Event.itemError job.id item.id item.url "Cancelled") ∧
        (process_one env cancel job item req).stagesRun = ["metadata"]) ∧
    (∀ i, env.fetchInfo = .ok i → cancel 1 = false → cancel 3 = true →
      (process_one env cancel job item req).events.getLast? =
          some (Event.itemError job.id item.id item.url "Cancelled") ∧
        (process_one env cancel job item req).stagesRun = ["metadata", "classify"]) ∧
    (∀ i p, env.fetchInfo = .ok i → env.downloadRes = .ok p →
      cancel 1 = false → cancel 3 = false → cancel 5 = true →
      (process_one env cancel job item req).events.getLast? =
          some (Event.itemError job.id item.id item.url "Cancelled") ∧
        (process_one env cancel job item req).stagesRun =
          ["metadata", "classify", "download"]) ∧
    (∀ i p m bk, env.fetchInfo = .ok i → env.downloadRes = .ok p →
      env.fingerprintRes = .ok m → env.harmonicRes = .ok bk →
      cancel 1 = false → cancel 3 = false → cancel 5 = false → cancel 8 = true →
      (process_one env cancel job item req).events.getLast? =
          some (Event.itemError job.id item.id item.url "Cancelled") ∧
        (process_one env cancel job item req).stagesRun =
          ["metadata", "classify", "download", "fingerprint", "analysis"]) := by
  refine ⟨⟨rfl, rfl⟩, ?_, ?_, ?_, ?_⟩
  · intro i hi h1
    simp [process_one, hi, h1]
    simp only [← List.append_assoc, ← List.cons_append, List.getLast?_concat]
  · intro i hi h1 h3
    simp [process_one, hi, h1, h3]
    simp only [← List.append_assoc, ← List.cons_append, List.getLast?_concat]
  · intro i p hi hp h1 h3 h5
    simp [process_one, hi, hp, h1, h3, h5]
    simp only [← List.append_assoc, ← List.cons_append, List.getLast?_concat]
  · intro i p m bk hi hp hm hbk h1 h3 h5 h8
    simp [process_one, hi, hp, hm, hbk, h1, h3, h5, h8]
    simp only [← List.append_assoc, ← List.cons_append, List.getLast?_concat]

/-- Cancel flag set from its 3rd read on: unset at the post-metadata check,
set at the check before download. -/
def cancel3on : Nat → Bool := fun k => decide (3 ≤ k)

theorem cancellation_claim_amended_witness :
    ((process_with_semaphore true env9 cancel3on ⟨"j", false, [], []⟩ ⟨"i", "u", {}⟩
        { inbox_dir := "/inbox" }).events =
      [Event.itemError "j" "i" "u" "Cancelled"]) ∧
      (process_one env9 cancel3on ⟨"j", false, [], []⟩ ⟨"i", "u", {}⟩
          { inbox_dir := "/inbox" }).events.getLast? =
        some (Event.itemError "j" "i" "u" "Cancelled") ∧
      (process_one env9 cancel3on ⟨"j", false, [], []⟩ ⟨"i", "u", {}⟩
          { inbox_dir := "/inbox" }).stagesRun = ["metadata", "classify"] := by
  have h := cancellation_claim_amended env9 cancel3on ⟨"j", false, [], []⟩ ⟨"i", "u", {}⟩
    { inbox_dir := "/inbox" }
  have h3 := h.2.2.1 {} rfl rfl rfl
  exact ⟨h.1.1, h3.1, h3.2⟩

end DropcrateSpec
